import Mathlib

set_option maxHeartbeats 1000000

/-
Verification development for the documentation indexing and query pipeline of
fusion360_docs_server_web.py.  Pure string manipulation, tree extraction and
ranking are embedded directly; external libraries (httpx, BeautifulSoup, re,
urllib.parse) are modelled as explicit oracle arguments or small concrete
models, each documented at its definition.
-/

/-- Model of the Python substring test used via startswith-style scanning:
startsWithCh s p is true when p is a prefix of s. -/
def startsWithCh : List Char → List Char → Bool
  | _, [] => true
  | [], _ :: _ => false
  | c :: cs, p :: ps => c == p && startsWithCh cs ps

/-- containsSub pat s is true when pat occurs as a contiguous run inside s. -/
def containsSub (pat : List Char) : List Char → Bool
  | [] => startsWithCh [] pat
  | c :: cs => startsWithCh (c :: cs) pat || containsSub pat cs

/-- Model of the Python expression pat in s on strings. -/
def strContains (s pat : String) : Bool := containsSub pat.data s.data

/-- Model of Python str.lower, restricted to ASCII case folding. -/
def lowerStr (s : String) : String := String.mk (s.data.map Char.toLower)

/-- Model of Python str.strip with no argument: drop whitespace at both ends. -/
def pyStrip (s : String) : String :=
  String.mk (((s.data.dropWhile Char.isWhitespace).reverse.dropWhile
    Char.isWhitespace).reverse)

/-- Model of Python string slicing s[:n]. -/
def pyTake (s : String) (n : Nat) : String := String.mk (s.data.take n)

/-- Helper for pySplit: accumulates the current word in reverse. -/
def splitWsAux : List Char → List Char → List String
  | [], acc => if acc.isEmpty then [] else [String.mk acc.reverse]
  | c :: cs, acc =>
    if c.isWhitespace then
      (if acc.isEmpty then splitWsAux cs []
       else String.mk acc.reverse :: splitWsAux cs [])
    else splitWsAux cs (c :: acc)

/-- Model of Python str.split with no argument: split on whitespace runs,
dropping empty pieces. -/
def pySplit (s : String) : List String := splitWsAux s.data []

/-- Single quote character, used by the Python f-strings when rendering. -/
def quoteCh : Char := Char.ofNat 39

/-- Wraps a string in single quote characters, as the f-strings of the source
do. -/
def pyQuoted (s : String) : String := String.mk (quoteCh :: (s.data ++ [quoteCh]))

/-- Fixed base origin of the documentation site (constant BASE_URL of the
source). -/
def BASE_URL : String := "https://help.autodesk.com"

/-- Model of urllib.parse.urljoin specialised to the shapes that arise with
the fixed base origin BASE_URL, which has an https scheme and an empty path:
absolute links are kept, scheme-relative links receive the https scheme,
root-relative links are appended to the origin, and other relative links are
resolved against the empty base path. -/
def urljoin (base link : String) : String :=
  if link = "" then base
  else if startsWithCh link.data "https://".data
          || startsWithCh link.data "http://".data then link
  else if startsWithCh link.data "//".data then "https:" ++ link
  else if startsWithCh link.data "/".data then base ++ link
  else base ++ "/" ++ link

/-- Model of a node of the raw table of contents tree.  A node is a mapping
with the fields ttl, ln and id read with default value the empty string
(node.get in the source), a sequence of nodes, or any other scalar shape. -/
inductive TocNode where
  | map (ttl ln nid : String) (children : List TocNode)
  | seq (items : List TocNode)
  | scalar

/-- Extracted API-relevant entry, as built by extract_api_entries. -/
structure ApiEntry where
  title : String
  url : String
  link : String
  id_ : String
  path : String
deriving DecidableEq

/-- Fixed keyword set api_indicators of extract_api_entries. -/
def api_indicators : List String :=
  ["API", "Class", "Method", "Property", "Function", "Object",
   "Definition", "Interface", "Reference", "Programming"]

/-- Lower case keyword set of the third disjunct of the relevance test. -/
def lower_indicators : List String := ["class", "object", "method", "property"]

/-- Relevance test is_api_related of extract_api_entries, verbatim from the
source: a case sensitive keyword in the title, or a non empty link containing
Fusion-360-API, or a case insensitive keyword in the title. -/
def is_api_related (title link : String) : Bool :=
  api_indicators.any (fun ind => strContains title ind)
  || (!(link == "") && strContains link "Fusion-360-API")
  || lower_indicators.any (fun ind => strContains (lowerStr title) ind)

mutual

/-- Embedding of extract_api_entries: walks the tree, emits an entry for a
relevant mapping node with a non empty link, recurses into children with the
extended path, and passes the path unchanged through sequence nodes.  Nodes of
any other shape contribute nothing. -/
def extract_api_entries : TocNode → String → List ApiEntry
  | .map ttl ln nid children, path =>
    (if is_api_related ttl ln && !(ln == "") then
      [⟨ttl, urljoin BASE_URL ln, ln, nid, path⟩]
    else []) ++
    extractChildren children (if path = "" then ttl else path ++ "/" ++ ttl)
  | .seq items, path => extractChildren items path
  | .scalar, _ => []

/-- Embedding of the per-child loop of extract_api_entries. -/
def extractChildren : List TocNode → String → List ApiEntry
  | [], _ => []
  | c :: cs, path => extract_api_entries c path ++ extractChildren cs path

end

/-- Outcome of one network attempt, as seen by fetch_with_retry: either the
response text after a successful raise_for_status, or any raised exception
(transport failure or non 2xx status), which the except clause catches. -/
inductive FetchOutcome where
  | ok (text : String)
  | err

/-- Loop body of fetch_with_retry.  The network is modelled as an oracle
giving the outcome of each attempt (index starting at 0, as the Python range
does).  The second component collects the durations of the asyncio.sleep
calls performed between attempts, each being 1 * (attempt + 1) seconds as in
the source. -/
def fetch_attempts (oracle : Nat → FetchOutcome) (max_retries : Nat)
    (attempt : Nat) : Option String × List Nat :=
  if h : attempt < max_retries then
    match oracle attempt with
    | .ok text => (some text, [])
    | .err =>
      if attempt = max_retries - 1 then (none, [])
      else
        let rest := fetch_attempts oracle max_retries (attempt + 1)
        (rest.1, 1 * (attempt + 1) :: rest.2)
  else (none, [])
termination_by max_retries - attempt
decreasing_by omega

/-- Embedding of fetch_with_retry: run the attempt loop from attempt 0 with
the given maximum number of attempts (default 3 in the source).  Returns the
response text of the first successful attempt, or none after exhaustion, never
raising past its own boundary, together with the performed sleep durations. -/
def fetch_with_retry (oracle : Nat → FetchOutcome) (max_retries : Nat) :
    Option String × List Nat :=
  fetch_attempts oracle max_retries 0

/-- Top level table of contents value, a JSON mapping; the Python truthiness
test on the global dict toctree_data is emptiness of this list. -/
abbrev TocDict := List (String × TocNode)

/-- Input and output effects of one load_toctree call, recorded so that the
absence of network or cache file input and output on a repeated call can be
stated. -/
inductive LoadStep where
  | readCacheFile
  | networkFetch
  | writeCacheFile
deriving DecidableEq

/-- Ambient state seen by load_toctree: the process wide slot toctree_data,
the on disk cache file (absent, present but unparseable, or parsing to a
dict), and the outcome of a network fetch plus JSON parse were one performed
(fetch failure, fetch success with a JSON decode error, or a parsed dict). -/
structure TocWorld where
  slot : TocDict
  cacheFile : Option (Option TocDict)
  netFetch : Option (Option TocDict)

/-- Embedding of load_toctree as a state transition: returns the resulting
tree, the new world, and the list of performed effects.  Mirrors the source:
return the slot when it is truthy; else read the cache file when it exists,
swallowing parse failures; else fetch from the web, and on a parsed response
populate the slot and persist a copy; on fetch or parse failure return an
empty tree with the slot left unpopulated. -/
def load_toctree (w : TocWorld) : TocDict × TocWorld × List LoadStep :=
  if !w.slot.isEmpty then (w.slot, w, [])
  else
    match w.cacheFile with
    | some (some d) => (d, { w with slot := d }, [.readCacheFile])
    | some none =>
      match w.netFetch with
      | some (some d) =>
        (d, { w with slot := d, cacheFile := some (some d) },
          [.readCacheFile, .networkFetch, .writeCacheFile])
      | some none => ([], w, [.readCacheFile, .networkFetch])
      | none => ([], w, [.readCacheFile, .networkFetch])
    | none =>
      match w.netFetch with
      | some (some d) =>
        (d, { w with slot := d, cacheFile := some (some d) },
          [.networkFetch, .writeCacheFile])
      | some none => ([], w, [.networkFetch])
      | none => ([], w, [.networkFetch])

/-- Scoring loop of search_api_documentation: score 10 for the lowered query
occurring in the lowered title, else score 5 when some whitespace split token
of the lowered query occurs in the lowered title, else the entry is dropped. -/
def search_matches (api_entries : List ApiEntry) (query : String) :
    List (Nat × ApiEntry) :=
  api_entries.filterMap (fun entry =>
    if strContains (lowerStr entry.title) (lowerStr query) then
      some (10, entry)
    else if (pySplit (lowerStr query)).any
        (fun word => strContains (lowerStr entry.title) word) then
      some (5, entry)
    else none)

/-- Model of the stable descending insertion used to mirror the Python stable
list.sort on the score key with reverse=True: an element is inserted after
every earlier element with a strictly larger or equal key. -/
def insertDesc (x : Nat × ApiEntry) : List (Nat × ApiEntry) → List (Nat × ApiEntry)
  | [] => [x]
  | y :: ys => if y.1 > x.1 then y :: insertDesc x ys else x :: y :: ys

/-- Model of matches.sort(key score, reverse=True): a stable descending sort
by the first component.  Stable sorting is unique, so this insertion sort
agrees with the sort of the source on every input. -/
def sortDesc : List (Nat × ApiEntry) → List (Nat × ApiEntry)
  | [] => []
  | x :: xs => insertDesc x (sortDesc xs)

/-- Scored, sorted and truncated result list of search_api_documentation. -/
def search_results (api_entries : List ApiEntry) (query : String)
    (max_results : Nat) : List (Nat × ApiEntry) :=
  (sortDesc (search_matches api_entries query)).take max_results

/-- Literal no results message of search_api_documentation. -/
def noResultsMsg (query : String) : String :=
  "No documentation found for query: " ++ pyQuoted query

/-- Rendering of one search hit, verbatim from the result loop. -/
def renderMatchLine (m : Nat × ApiEntry) : String :=
  "📚 " ++ m.2.title ++ "\n   URL: " ++ m.2.url ++ "\n   Path: "
    ++ m.2.path ++ "\n\n"

/-- Populated rendering of search_api_documentation, the header followed by
one block per retained match, concatenated in order as the += loop does. -/
def renderSearchResults (query : String) (ms : List (Nat × ApiEntry)) :
    String :=
  "Search results for " ++ (pyQuoted query ++ (":\n\n"
    ++ String.join (ms.map renderMatchLine)))

/-- Embedding of the body of search_api_documentation after the tree has been
loaded and the entries extracted: score, sort, truncate, and render either the
literal no results message or the populated listing. -/
def search_api_documentation (api_entries : List ApiEntry) (query : String)
    (max_results : Nat) : String :=
  let ms := search_results api_entries query max_results
  if ms.isEmpty then noResultsMsg query
  else renderSearchResults query ms

/-- Abstraction of the BeautifulSoup document handed to
parse_api_documentation, after script and style removal: the text of the
first title element when one exists, the text of the first h1 element when
one exists, the plain text of the selected main content region (the selector
cascade of the source collapses to whichever region get_text was applied to),
and the texts of the code and pre elements of that region in document
order.  BeautifulSoup itself is an external library consumed as a black box,
so its output is the input of the embedded parser. -/
structure Soup where
  titleText : Option String
  h1Text : Option String
  contentText : String
  codeTexts : List String

/-- Normalized record produced by parse_api_documentation. -/
structure ParsedDoc where
  title : String
  url : String
  content : String
  full_content : String
  code_examples : List String
  classes : List String
  methods : List String
  properties : List String
  content_length : Nat

/-- Pattern list class_patterns of the source, kept as data. -/
def class_patterns : List String :=
  ["class\\s+(\\w+)", "(\\w+)\\s+class", "(\\w+)\\s+object",
   "(\\w+)\\s+interface"]

/-- Pattern list method_patterns of the source, kept as data. -/
def method_patterns : List String :=
  ["(\\w+)\\s*\\([^)]*\\)\\s*[:-]", "def\\s+(\\w+)", "function\\s+(\\w+)",
   "(\\w+)\\s+method"]

/-- Pattern list property_patterns of the source, kept as data. -/
def property_patterns : List String :=
  ["(\\w+)\\s+property", "property\\s+(\\w+)", "(\\w+)\\s*:\\s*\\w+"]

/-- Model of list(set(xs)) of the source: duplicates removed.  The iteration
order of a Python set is arbitrary, so one definite order (first occurrences
kept) is chosen; every property stated about the result holds regardless of
the order. -/
def pySet (xs : List String) : List String := xs.dedup

/-- Embedding of parse_api_documentation.  The regular expression engine
re.findall is an external library, modelled as the oracle argument findall
taking a pattern and the text and returning the harvested group values; the
patterns handed to it are the ones of the source.  The remaining structure is
verbatim: title falls back from title to h1 to the literal Unknown, code and
pre texts are stripped and kept only above 10 characters then capped at 5,
the three identifier families are harvested pattern by pattern, deduplicated
and capped at 10, 20 and 20, and content is the 2000 character truncation of
the plain text. -/
def parse_api_documentation (findall : String → String → List String)
    (soup : Soup) (url : String) : ParsedDoc :=
  let title :=
    match soup.titleText with
    | some t => pyStrip t
    | none =>
      match soup.h1Text with
      | some t => pyStrip t
      | none => "Unknown"
  let text_content := soup.contentText
  let code_blocks :=
    (soup.codeTexts.map pyStrip).filter (fun t => decide (10 < t.length))
  let classes :=
    class_patterns.foldl (fun acc p => acc ++ findall p text_content) []
  let methods :=
    method_patterns.foldl (fun acc p => acc ++ findall p text_content) []
  let properties :=
    property_patterns.foldl (fun acc p => acc ++ findall p text_content) []
  { title := title
    url := url
    content := pyTake text_content 2000
    full_content := text_content
    code_examples := code_blocks.take 5
    classes := (pySet classes).take 10
    methods := (pySet methods).take 20
    properties := (pySet properties).take 20
    content_length := text_content.length }

/-- Literal not found message of get_api_class_info. -/
def noClassMsg (class_name : String) : String :=
  "No documentation found for class: " ++ pyQuoted class_name

/-- Detail rendering of get_api_class_info for a resolved document, verbatim
from the += chain of the source, including the per family truncations and
overflow counts. -/
def renderClassDetail (class_name : String) (d : ParsedDoc) : String :=
  let r1 := "API Class Information: " ++ class_name ++ "\n\n"
    ++ "📖 Title: " ++ d.title ++ "\n"
    ++ "🔗 URL: " ++ d.url ++ "\n\n"
  let r2 :=
    if d.classes.isEmpty then r1
    else r1 ++ "📋 Classes found: " ++ String.intercalate ", " d.classes
      ++ "\n\n"
  let r3 :=
    if d.methods.isEmpty then r2
    else r2 ++ "🔧 Methods found: "
      ++ String.intercalate ", " (d.methods.take 10) ++ "\n"
      ++ (if 10 < d.methods.length then
            "   ... and " ++ toString (d.methods.length - 10) ++ " more\n"
          else "")
      ++ "\n"
  let r4 :=
    if d.properties.isEmpty then r3
    else r3 ++ "📊 Properties found: "
      ++ String.intercalate ", " (d.properties.take 10) ++ "\n"
      ++ (if 10 < d.properties.length then
            "   ... and " ++ toString (d.properties.length - 10) ++ " more\n"
          else "")
      ++ "\n"
  let r5 :=
    if d.code_examples.isEmpty then r4
    else r4 ++ "💻 Code Examples (" ++ toString d.code_examples.length
      ++ "):\n"
      ++ String.join (((d.code_examples.take 2).enumFrom 1).map
          (fun ie => "\nExample " ++ toString ie.1 ++ ":\n```\n"
            ++ pyTake ie.2 300 ++ "...\n```\n"))
  r5 ++ "\n📝 Content Preview:\n" ++ pyTake d.content 500 ++ "...\n"

/-- Fallback rendering of get_api_class_info when the first match could not
be resolved to a parsed document: the raw candidates, title and URL only. -/
def renderFallback (class_name : String) (candidates : List ApiEntry) :
    String :=
  "Found matches for " ++ (pyQuoted class_name ++ (":\n\n"
    ++ String.join (candidates.map
        (fun e => "📚 " ++ e.title ++ "\n   URL: " ++ e.url ++ "\n\n"))))

/-- Embedding of the body of get_api_class_info after the tree has been
loaded and the entries extracted.  The per entry doc cache composed with the
fetcher and the parser performs file and network input and output, so it is
modelled as the oracle argument resolve, returning the parsed document of an
entry or none when every resolution path failed.  The source filters the
entries whose lowered title contains the lowered class name, answers the
literal not found message when no entry matches, otherwise resolves the first
match in extraction order and renders its detail, falling back to listing the
first three raw candidates when resolution fails. -/
def get_api_class_info (api_entries : List ApiEntry)
    (resolve : ApiEntry → Option ParsedDoc) (class_name : String) : String :=
  let class_matches := api_entries.filter
    (fun e => strContains (lowerStr e.title) (lowerStr class_name))
  match class_matches with
  | [] => noClassMsg class_name
  | best :: rest =>
    match resolve best with
    | some d => renderClassDetail class_name d
    | none => renderFallback class_name ((best :: rest).take 3)

/-- Head character of a string, used to tell renderings apart. -/
def strHead (s : String) : Option Char := s.data.head?

theorem data_append_eq (s t : String) : (s ++ t).data = s.data ++ t.data := by
  cases s
  cases t
  rfl

theorem strHead_renderSearchResults (q : String) (ms : List (Nat × ApiEntry)) :
    strHead (renderSearchResults q ms) = some ('S') := by
  unfold renderSearchResults strHead
  rw [data_append_eq]
  rfl

theorem strHead_noResultsMsg (q : String) :
    strHead (noResultsMsg q) = some ('N') := by
  unfold noResultsMsg strHead
  rw [data_append_eq]
  rfl

theorem renderSearchResults_ne_noResultsMsg (q q2 : String)
    (ms : List (Nat × ApiEntry)) : renderSearchResults q ms ≠ noResultsMsg q2 := by
  intro h
  have h2 := congrArg strHead h
  rw [strHead_renderSearchResults, strHead_noResultsMsg] at h2
  simp at h2

theorem insertDesc_length (x : Nat × ApiEntry) (l : List (Nat × ApiEntry)) :
    (insertDesc x l).length = l.length + 1 := by
  induction l with
  | nil => rfl
  | cons y ys ih =>
    rw [insertDesc]
    split
    · simp [ih]
    · simp

theorem sortDesc_length (l : List (Nat × ApiEntry)) :
    (sortDesc l).length = l.length := by
  induction l with
  | nil => rfl
  | cons x xs ih =>
    rw [sortDesc, insertDesc_length, ih]
    rfl

theorem insertDesc_of_le (x : Nat × ApiEntry) (l : List (Nat × ApiEntry))
    (h : ∀ y ∈ l, y.1 ≤ x.1) : insertDesc x l = x :: l := by
  cases l with
  | nil => rfl
  | cons y ys =>
    have hy : ¬ y.1 > x.1 := not_lt.mpr (h y (List.mem_cons_self y ys))
    simp [insertDesc, hy]

theorem insertDesc_append_gt (x : Nat × ApiEntry)
    (l1 l2 : List (Nat × ApiEntry)) (h : ∀ y ∈ l1, x.1 < y.1) :
    insertDesc x (l1 ++ l2) = l1 ++ insertDesc x l2 := by
  induction l1 with
  | nil => rfl
  | cons y ys ih =>
    have hy : y.1 > x.1 := h y (List.mem_cons_self y ys)
    simp only [List.cons_append, insertDesc, if_pos hy]
    rw [show ys.append l2 = ys ++ l2 from rfl,
      ih (fun z hz => h z (List.mem_cons_of_mem y hz))]

theorem sortDesc_eq_filter (l : List (Nat × ApiEntry))
    (h : ∀ m ∈ l, m.1 = 10 ∨ m.1 = 5) :
    sortDesc l = l.filter (fun m => m.1 == 10)
      ++ l.filter (fun m => m.1 == 5) := by
  induction l with
  | nil => rfl
  | cons x xs ih =>
    have hxs : ∀ m ∈ xs, m.1 = 10 ∨ m.1 = 5 :=
      fun m hm => h m (List.mem_cons_of_mem x hm)
    rw [sortDesc, ih hxs]
    rcases h x (List.mem_cons_self x xs) with hx | hx
    · have hall : ∀ y ∈ xs.filter (fun m => m.1 == 10)
          ++ xs.filter (fun m => m.1 == 5), y.1 ≤ x.1 := by
        intro y hy
        rcases List.mem_append.mp hy with hy1 | hy1
        · rcases hxs y (List.mem_of_mem_filter hy1) with h1 | h1 <;> omega
        · rcases hxs y (List.mem_of_mem_filter hy1) with h1 | h1 <;> omega
      rw [insertDesc_of_le x _ hall]
      simp [List.filter_cons, hx]
    · have h10 : ∀ y ∈ xs.filter (fun m => m.1 == 10), x.1 < y.1 := by
        intro y hy
        have := List.of_mem_filter hy
        simp at this
        omega
      rw [insertDesc_append_gt x _ _ h10,
        insertDesc_of_le x _ (by
          intro y hy
          have := List.of_mem_filter hy
          simp at this
          omega)]
      simp [List.filter_cons, hx]

theorem search_matches_key (api_entries : List ApiEntry) (q : String) :
    ∀ m ∈ search_matches api_entries q, m.1 = 10 ∨ m.1 = 5 := by
  intro m hm
  simp only [search_matches, List.mem_filterMap] at hm
  obtain ⟨e, _, hf⟩ := hm
  split_ifs at hf <;> cases hf <;> simp

theorem filter_ten_general (p1 p2 : ApiEntry → Bool) (l : List ApiEntry) :
    (l.filterMap (fun e => if p1 e then some ((10 : Nat), e)
        else if p2 e then some (5, e) else none)).filter (fun m => m.1 == 10)
      = l.filterMap (fun e => if p1 e then some ((10 : Nat), e) else none) := by
  induction l with
  | nil => rfl
  | cons e es ih =>
    rw [List.filterMap_cons, List.filterMap_cons]
    by_cases h1 : p1 e
    · rw [if_pos h1, if_pos h1, List.filter_cons]
      simp [ih]
    · rw [if_neg h1, if_neg h1]
      by_cases h2 : p2 e
      · rw [if_pos h2, List.filter_cons]
        simp [ih]
      · rw [if_neg h2, ih]

theorem filter_five_general (p1 p2 : ApiEntry → Bool) (l : List ApiEntry) :
    (l.filterMap (fun e => if p1 e then some ((10 : Nat), e)
        else if p2 e then some (5, e) else none)).filter (fun m => m.1 == 5)
      = l.filterMap (fun e =>
          if !p1 e && p2 e then some ((5 : Nat), e) else none) := by
  induction l with
  | nil => rfl
  | cons e es ih =>
    rw [List.filterMap_cons, List.filterMap_cons]
    by_cases h1 : p1 e
    · have hb : ¬ ((!p1 e && p2 e) = true) := by rw [h1]; simp
      rw [if_pos h1, if_neg hb, List.filter_cons]
      simp [ih]
    · have hp1 : p1 e = false := by revert h1; cases p1 e <;> simp
      rw [if_neg h1]
      by_cases h2 : p2 e
      · have hb : (!p1 e && p2 e) = true := by rw [hp1, h2]; rfl
        rw [if_pos h2, if_pos hb, List.filter_cons]
        simp [ih]
      · have hb : ¬ ((!p1 e && p2 e) = true) := by rw [hp1]; simp [h2]
        rw [if_neg h2, if_neg hb, ih]

theorem containsSub_nil (l : List Char) : containsSub [] l = true := by
  cases l with
  | nil => rfl
  | cons c cs => rfl

theorem strContains_empty (s : String) : strContains s "" = true :=
  containsSub_nil s.data

theorem search_results_ne (api_entries : List ApiEntry) (q : String) (N : Nat)
    (hN : 1 ≤ N) (h : search_matches api_entries q ≠ []) :
    search_results api_entries q N ≠ [] := by
  intro h0
  have hl : (search_matches api_entries q).length ≠ 0 :=
    fun hz => h (List.eq_nil_of_length_eq_zero hz)
  unfold search_results at h0
  have h2 := congrArg List.length h0
  rw [List.length_take, sortDesc_length] at h2
  have h3 : N = 0 ∨ search_matches api_entries q = [] := by simpa using h2
  rcases h3 with h3 | h3
  · omega
  · exact h h3

theorem search_output_of_ne (api_entries : List ApiEntry) (q : String)
    (N : Nat) (h : search_results api_entries q N ≠ []) :
    search_api_documentation api_entries q N
      = renderSearchResults q (search_results api_entries q N) := by
  cases hres : search_results api_entries q N with
  | nil => exact absurd hres h
  | cons a l => simp [search_api_documentation, hres]

theorem search_output_of_empty (api_entries : List ApiEntry) (q : String)
    (N : Nat) (hm : search_matches api_entries q = []) :
    search_api_documentation api_entries q N = noResultsMsg q := by
  simp [search_api_documentation, search_results, hm, sortDesc]

/-- C1: for every entry collection, non empty query and positive limit N, the
Search operation keeps exactly the score 10 entries, whose lowered title
contains the whole lowered query, followed by the score 5 entries, whose
lowered title misses the whole query but contains some whitespace split token
of it, both in extraction order (stable descending sort), truncated to N; it
never returns more than N entries; and it renders the literal no results
message exactly when no entry matched. -/
theorem search_api_documentation_spec (api_entries : List ApiEntry)
    (query : String) (N : Nat) (hq : query ≠ "") (hN : 1 ≤ N) :
    search_results api_entries query N
      = ((api_entries.filterMap (fun e =>
            if strContains (lowerStr e.title) (lowerStr query) then
              some ((10 : Nat), e) else none))
         ++ (api_entries.filterMap (fun e =>
            if !(strContains (lowerStr e.title) (lowerStr query))
                && (pySplit (lowerStr query)).any
                  (fun word => strContains (lowerStr e.title) word) then
              some ((5 : Nat), e) else none))).take N
    ∧ (search_results api_entries query N).length ≤ N
    ∧ (search_api_documentation api_entries query N = noResultsMsg query
        ↔ search_matches api_entries query = []) := by
  have hkey := search_matches_key api_entries query
  have e10 : (search_matches api_entries query).filter (fun m => m.1 == 10)
      = api_entries.filterMap (fun e =>
          if strContains (lowerStr e.title) (lowerStr query) then
            some ((10 : Nat), e) else none) :=
    filter_ten_general
      (fun e => strContains (lowerStr e.title) (lowerStr query))
      (fun e => (pySplit (lowerStr query)).any
        (fun word => strContains (lowerStr e.title) word)) api_entries
  have e5 : (search_matches api_entries query).filter (fun m => m.1 == 5)
      = api_entries.filterMap (fun e =>
          if !(strContains (lowerStr e.title) (lowerStr query))
              && (pySplit (lowerStr query)).any
                (fun word => strContains (lowerStr e.title) word) then
            some ((5 : Nat), e) else none) :=
    filter_five_general
      (fun e => strContains (lowerStr e.title) (lowerStr query))
      (fun e => (pySplit (lowerStr query)).any
        (fun word => strContains (lowerStr e.title) word)) api_entries
  refine ⟨?_, ?_, ?_, ?_⟩
  · show (sortDesc (search_matches api_entries query)).take N = _
    rw [sortDesc_eq_filter _ hkey, e10, e5]
  · show ((sortDesc (search_matches api_entries query)).take N).length ≤ N
    rw [List.length_take]
    exact min_le_left _ _
  · intro hout
    by_contra hne
    have hres := search_results_ne api_entries query N hN hne
    rw [search_output_of_ne api_entries query N hres] at hout
    exact renderSearchResults_ne_noResultsMsg _ _ _ hout
  · intro hm
    exact search_output_of_empty api_entries query N hm

/-- Witness for C1: the end to end scenario of the specification, searching
sketch over the three entries with limit 2 keeps the two title substring
matches, both score 10, in extraction order. -/
theorem search_api_documentation_spec_witness :
    search_results
        [⟨"Sketch Class", "u1", "l1", "i1", ""⟩, 
         ⟨"SketchPoint Property", "u2", "l2", "i2", ""⟩, 
         ⟨"Extrude Method", "u3", "l3", "i3", ""⟩] "sketch" 2
      = [((10 : Nat), ⟨"Sketch Class", "u1", "l1", "i1", ""⟩),
         ((10 : Nat), ⟨"SketchPoint Property", "u2", "l2", "i2", ""⟩)] := by
  have h := search_api_documentation_spec
    [⟨"Sketch Class", "u1", "l1", "i1", ""⟩, 
     ⟨"SketchPoint Property", "u2", "l2", "i2", ""⟩, 
     ⟨"Extrude Method", "u3", "l3", "i3", ""⟩] "sketch" 2
    (by decide) (by decide)
  rw [h.1]
  decide

theorem search_matches_empty_query (api_entries : List ApiEntry) :
    search_matches api_entries ""
      = api_entries.map (fun e => ((10 : Nat), e)) := by
  induction api_entries with
  | nil => rfl
  | cons e es ih =>
    have hc : strContains (lowerStr e.title) (lowerStr "") = true :=
      strContains_empty _
    simp only [search_matches, List.filterMap_cons] at ih ⊢
    rw [if_pos hc, List.map_cons]
    exact congrArg (fun l => ((10 : Nat), e) :: l) ih

theorem sortDesc_all_ten (l : List ApiEntry) :
    sortDesc (l.map (fun e => ((10 : Nat), e)))
      = l.map (fun e => ((10 : Nat), e)) := by
  induction l with
  | nil => rfl
  | cons e es ih =>
    have hle : ∀ y ∈ es.map (fun e => ((10 : Nat), e)),
        y.1 ≤ (((10 : Nat), e)).1 := by
      intro y hy
      simp only [List.mem_map] at hy
      obtain ⟨a, _, ha⟩ := hy
      rw [← ha]
    rw [List.map_cons, sortDesc, ih, insertDesc_of_le _ _ hle]

/-- C9: with the empty query every entry scores 10 (the empty string is a
substring of every title), so Search returns the first min of N and the
collection size entries in extraction order and never the no results
message. -/
theorem search_empty_query_spec (api_entries : List ApiEntry) (N : Nat)
    (hne : api_entries ≠ []) (hN : 1 ≤ N) :
    search_results api_entries "" N
      = (api_entries.map (fun e => ((10 : Nat), e))).take N
    ∧ search_api_documentation api_entries "" N ≠ noResultsMsg "" := by
  constructor
  · show (sortDesc (search_matches api_entries "")).take N = _
    rw [search_matches_empty_query, sortDesc_all_ten]
  · have hm : search_matches api_entries "" ≠ [] := by
      rw [search_matches_empty_query]
      intro h0
      exact hne (List.map_eq_nil_iff.mp h0)
    have hres := search_results_ne api_entries "" N hN hm
    rw [search_output_of_ne api_entries "" N hres]
    exact renderSearchResults_ne_noResultsMsg _ _ _

/-- Witness for C9: the empty query over two entries with limit 1 returns the
first entry with score 10, and the rendered output is not the no results
message. -/
theorem search_empty_query_spec_witness :
    search_results
        [⟨"Sketch Class", "u1", "l1", "i1", ""⟩,
         ⟨"Extrude Method", "u3", "l3", "i3", ""⟩] "" 1
      = [((10 : Nat), ⟨"Sketch Class", "u1", "l1", "i1", ""⟩)]
    ∧ search_api_documentation
        [⟨"Sketch Class", "u1", "l1", "i1", ""⟩,
         ⟨"Extrude Method", "u3", "l3", "i3", ""⟩] "" 1
      ≠ noResultsMsg "" := by
  have h := search_empty_query_spec
    [⟨"Sketch Class", "u1", "l1", "i1", ""⟩,
     ⟨"Extrude Method", "u3", "l3", "i3", ""⟩] 1
    (by decide) (by decide)
  exact ⟨by rw [h.1]; rfl, h.2⟩

theorem fetch_attempts_all_err (oracle : Nat → FetchOutcome)
    (max_retries attempt : Nat)
    (hall : ∀ i, i < max_retries → oracle i = FetchOutcome.err) :
    fetch_attempts oracle max_retries attempt
      = (none, (List.range' (attempt + 1) (max_retries - 1 - attempt)).map
          (fun i => 1 * i)) := by
  by_cases h : attempt < max_retries
  · by_cases h2 : attempt = max_retries - 1
    · have h0 : max_retries - 1 - attempt = 0 := by omega
      rw [fetch_attempts, dif_pos h]
      simp only [hall attempt h, if_pos h2, h0]
      rfl
    · have ih := fetch_attempts_all_err oracle max_retries (attempt + 1) hall
      rw [fetch_attempts, dif_pos h]
      simp only [hall attempt h, if_neg h2, ih]
      have hr : max_retries - 1 - attempt
          = (max_retries - 1 - (attempt + 1)) + 1 := by omega
      rw [hr, List.range'_succ, List.map_cons]
  · have h0 : max_retries - 1 - attempt = 0 := by omega
    rw [fetch_attempts, dif_neg h, h0]
    rfl
termination_by max_retries - attempt
decreasing_by omega

/-- C2: the fetcher retries on any failed attempt, sleeping 1 * (index of the
attempt, starting at 1) seconds between attempts; when the first attempt
fails and the second succeeds it stops after exactly one retry and returns
the text of the second attempt; and when every attempt fails it returns an
absent result (never an exception) after sleeping 1 s, 2 s, and so on up to
1 * (max_retries - 1) seconds. -/
theorem fetch_with_retry_spec (oracle : Nat → FetchOutcome)
    (max_retries : Nat) :
    (∀ t, 2 ≤ max_retries → oracle 0 = FetchOutcome.err →
      oracle 1 = FetchOutcome.ok t →
      fetch_with_retry oracle max_retries = (some t, [1]))
    ∧ ((∀ i, i < max_retries → oracle i = FetchOutcome.err) →
      fetch_with_retry oracle max_retries
        = (none, (List.range' 1 (max_retries - 1)).map (fun i => 1 * i))) := by
  constructor
  · intro t h2 h0 h1
    have ha : (0 : Nat) < max_retries := by omega
    have hb : ¬ ((0 : Nat) = max_retries - 1) := by omega
    have hc : (1 : Nat) < max_retries := by omega
    rw [fetch_with_retry, fetch_attempts, dif_pos ha]
    simp only [h0, if_neg hb]
    rw [fetch_attempts, dif_pos hc]
    simp only [h1]
  · intro hall
    have h := fetch_attempts_all_err oracle max_retries 0 hall
    rw [fetch_with_retry, h]
    norm_num

/-- Witness for C2: with the default three attempts, an oracle failing on
attempt 0 and succeeding on attempt 1 yields the text of the second attempt
after a single one second sleep. -/
theorem fetch_with_retry_spec_witness :
    fetch_with_retry
        (fun i => if i = 1 then FetchOutcome.ok "page" else FetchOutcome.err)
        3 = (some "page", [1]) := by
  have h := fetch_with_retry_spec
    (fun i => if i = 1 then FetchOutcome.ok "page" else FetchOutcome.err) 3
  exact h.1 "page" (by omega) rfl rfl

/-- Counterexample to C3: in a process whose first load fails (no cache file
on disk and network fetch failing), the slot stays unpopulated, so the second
load call performs a network fetch again instead of returning the slot
without input or output. -/
theorem load_toctree_second_call_refetches :
    LoadStep.networkFetch ∈
      (load_toctree (load_toctree ⟨[], none, none⟩).2.1).2.2 := by
  decide

/-- C3 amended: after a first load call that returns a non empty tree, every
subsequent load call returns the process wide slot immediately, with the
world unchanged and no network or file input or output performed; a first
call that returns an empty tree (load failure, or an empty cached or fetched
dict) leaves the slot unpopulated and a later call performs the load again. -/
theorem load_toctree_idempotent_of_nonempty (w : TocWorld)
    (h : (load_toctree w).1 ≠ []) :
    load_toctree (load_toctree w).2.1
      = ((load_toctree w).1, (load_toctree w).2.1, []) := by
  obtain ⟨slot, cf, nf⟩ := w
  by_cases hs : slot.isEmpty
  · rcases cf with _ | cf2
    · rcases nf with _ | nf2
      · simp [load_toctree, hs] at h
      · rcases nf2 with _ | d2
        · simp [load_toctree, hs] at h
        · simp only [load_toctree, hs] at h ⊢
          have hd : d2.isEmpty = false := by
            cases d2
            · simp [load_toctree, hs] at h
            · rfl
          simp [hd]
    · rcases cf2 with _ | d
      · rcases nf with _ | nf2
        · simp [load_toctree, hs] at h
        · rcases nf2 with _ | d2
          · simp [load_toctree, hs] at h
          · simp only [load_toctree, hs] at h ⊢
            have hd : d2.isEmpty = false := by
              cases d2
              · simp [load_toctree, hs] at h
              · rfl
            simp [hd]
      · simp only [load_toctree, hs] at h ⊢
        have hd : d.isEmpty = false := by
          cases d
          · simp [load_toctree, hs] at h
          · rfl
        simp [hd]
  · simp [load_toctree, hs]

/-- Witness for the amended C3: a populated slot is returned unchanged with
no effects by a repeated load. -/
theorem load_toctree_idempotent_of_nonempty_witness :
    load_toctree
        (load_toctree ⟨[("books", TocNode.scalar)], none, none⟩).2.1
      = ([("books", TocNode.scalar)],
          ⟨[("books", TocNode.scalar)], none, none⟩, []) := by
  have h := load_toctree_idempotent_of_nonempty
    ⟨[("books", TocNode.scalar)], none, none⟩ (by simp [load_toctree])
  exact h

/-- C4: for a mapping node whose title contains (case sensitively) a keyword
of the fixed relevance set, or whose link contains Fusion-360-API, extract
emits the entry for that node exactly when the link is non empty; the
children are processed either way. -/
theorem extract_relevant_entry_iff_link (ttl ln nid : String)
    (children : List TocNode) (path : String)
    (hrel : api_indicators.any (fun ind => strContains ttl ind) = true
      ∨ strContains ln "Fusion-360-API" = true) :
    extract_api_entries (TocNode.map ttl ln nid children) path
      = (if ln = "" then []
         else [⟨ttl, urljoin BASE_URL ln, ln, nid, path⟩])
        ++ extractChildren children
            (if path = "" then ttl else path ++ "/" ++ ttl) := by
  rw [extract_api_entries]
  by_cases hln : ln = ""
  · have hb : (is_api_related ttl ln && !(ln == "")) = false := by
      rw [hln]
      simp
    rw [if_pos hln]
    simp [hb]
  · have h1 : (ln == "") = false := by simp [hln]
    have h2 : is_api_related ttl ln = true := by
      unfold is_api_related
      rcases hrel with hr | hr
      · simp [hr]
      · simp [hr, h1]
    have hb : (is_api_related ttl ln && !(ln == "")) = true := by
      simp [h1, h2]
    rw [if_neg hln]
    simp [hb]

/-- Witness for C4: a node whose title contains the keyword Class and whose
link is non empty yields exactly its own entry. -/
theorem extract_relevant_entry_iff_link_witness :
    extract_api_entries (TocNode.map "Sketch Class" "/x.html" "i" []) ""
      = [⟨"Sketch Class", "https://help.autodesk.com/x.html", "/x.html",
          "i", ""⟩] := by
  have h := extract_relevant_entry_iff_link "Sketch Class" "/x.html" "i" [] ""
    (Or.inl (by decide))
  rw [h, extractChildren]
  decide

theorem mem_extractChildren_of_mem (c : TocNode) (l : List TocNode)
    (p : String) (hc : c ∈ l) (e : ApiEntry)
    (he : e ∈ extract_api_entries c p) : e ∈ extractChildren l p := by
  induction l with
  | nil => cases hc
  | cons a l2 ih =>
    rw [extractChildren]
    rcases List.mem_cons.mp hc with h | h
    · rw [← h]
      exact List.mem_append_left _ he
    · exact List.mem_append_right _ (ih h)

theorem self_entry_mem (ttl ln nid : String) (children : List TocNode)
    (path : String) (hrel : is_api_related ttl ln = true) (hln : ln ≠ "") :
    (⟨ttl, urljoin BASE_URL ln, ln, nid, path⟩ : ApiEntry)
      ∈ extract_api_entries (TocNode.map ttl ln nid children) path := by
  rw [extract_api_entries]
  have hb : (is_api_related ttl ln && !(ln == "")) = true := by
    simp [hrel, hln]
  simp [hb]

/-- C5: the entry produced for a relevant child of a mapping node carries as
its path the incoming path of the node extended with a slash and the title
of the node, the separator being omitted when the incoming path is empty;
and a sequence node passes the incoming path to every element unchanged. -/
theorem extract_child_path_extension :
    (∀ (items : List TocNode) (path : String),
      extract_api_entries (TocNode.seq items) path
        = extractChildren items path)
    ∧ ∀ (ttl ln nid : String) (children : List TocNode) (path : String)
        (cttl cln cnid : String) (cchildren : List TocNode),
        TocNode.map cttl cln cnid cchildren ∈ children →
        is_api_related cttl cln = true → cln ≠ "" →
        (⟨cttl, urljoin BASE_URL cln, cln, cnid,
          if path = "" then ttl else path ++ "/" ++ ttl⟩ : ApiEntry)
          ∈ extract_api_entries (TocNode.map ttl ln nid children) path := by
  constructor
  · intro items path
    rw [extract_api_entries]
  · intro ttl ln nid children path cttl cln cnid cchildren hmem hrel hln
    rw [extract_api_entries]
    refine List.mem_append_right _ ?_
    exact mem_extractChildren_of_mem _ children _ hmem _
      (self_entry_mem cttl cln cnid cchildren _ hrel hln)

/-- Witness for C5: a child entry under a parent node titled Parent API with
an empty incoming path receives the path Parent API. -/
theorem extract_child_path_extension_witness :
    (⟨"Sketch Class", urljoin BASE_URL "/s.html", "/s.html", "i",
      "Parent API"⟩ : ApiEntry)
      ∈ extract_api_entries (TocNode.map "Parent API" "" "p"
          [TocNode.map "Sketch Class" "/s.html" "i" []]) "" := by
  have h := extract_child_path_extension.2 "Parent API" "" "p"
    [TocNode.map "Sketch Class" "/s.html" "i" []] ""
    "Sketch Class" "/s.html" "i" []
    (List.mem_cons_self _ _) (by decide) (by decide)
  simpa using h

/-- C10: extract returns the empty entry sequence on a node that is neither
a mapping nor a sequence, and never fails on a tree whose leaves are such
scalars; a sequence of scalar leaves extracts to the empty sequence. -/
theorem extract_scalar_safe :
    (∀ path, extract_api_entries TocNode.scalar path = [])
    ∧ ∀ (l : List TocNode) (path : String),
        (∀ n ∈ l, n = TocNode.scalar) →
        extract_api_entries (TocNode.seq l) path = [] := by
  have hsc : ∀ path, extract_api_entries TocNode.scalar path = [] := by
    intro path
    rw [extract_api_entries]
  refine ⟨hsc, ?_⟩
  intro l path hall
  rw [extract_api_entries]
  induction l with
  | nil => rw [extractChildren]
  | cons a l2 ih =>
    rw [extractChildren]
    rw [hall a (List.mem_cons_self a l2), hsc path]
    rw [ih (fun n hn => hall n (List.mem_cons_of_mem a hn))]
    rfl

/-- Witness for C10: a sequence of two scalar leaves extracts to nothing. -/
theorem extract_scalar_safe_witness :
    extract_api_entries (TocNode.seq [TocNode.scalar, TocNode.scalar]) "p"
      = [] := by
  refine extract_scalar_safe.2 [TocNode.scalar, TocNode.scalar] "p" ?_
  intro n hn
  rcases List.mem_cons.mp hn with h | h
  · exact h
  · simpa using h

mutual

theorem extract_url_eq_node (n : TocNode) (path : String) (e : ApiEntry)
    (he : e ∈ extract_api_entries n path) :
    e.url = urljoin BASE_URL e.link := by
  cases n with
  | map ttl ln nid children =>
    rw [extract_api_entries] at he
    rcases List.mem_append.mp he with h | h
    · by_cases hb : (is_api_related ttl ln && !(ln == "")) = true
      · rw [if_pos hb] at h
        rcases List.mem_singleton.mp h with rfl
        rfl
      · rw [if_neg hb] at h
        cases h
    · exact extract_url_eq_list children _ e h
  | seq items =>
    rw [extract_api_entries] at he
    exact extract_url_eq_list items path e he
  | scalar =>
    rw [extract_api_entries] at he
    cases he

theorem extract_url_eq_list (l : List TocNode) (path : String) (e : ApiEntry)
    (he : e ∈ extractChildren l path) :
    e.url = urljoin BASE_URL e.link := by
  cases l with
  | nil =>
    rw [extractChildren] at he
    cases he
  | cons c cs =>
    rw [extractChildren] at he
    rcases List.mem_append.mp he with h | h
    · exact extract_url_eq_node c path e h
    · exact extract_url_eq_list cs path e h

end

/-- C8: the single book of the end to end scenario extracts to exactly one
entry with its original fields, an empty path, and as url the link resolved
against the fixed base origin; and in general every emitted entry has as url
its link resolved against the fixed base origin. -/
theorem extract_url_invariant :
    extract_api_entries
        (TocNode.map "ExtrudeFeature Class" "/foo.html" "x1" []) ""
      = [⟨"ExtrudeFeature Class", "https://help.autodesk.com/foo.html",
          "/foo.html", "x1", ""⟩]
    ∧ ∀ (n : TocNode) (path : String) (e : ApiEntry),
        e ∈ extract_api_entries n path →
        e.url = urljoin BASE_URL e.link := by
  constructor
  · rw [extract_api_entries, extractChildren]
    decide
  · exact fun n path e he => extract_url_eq_node n path e he

/-- Witness for C8: the scenario entry satisfies the url invariant. -/
theorem extract_url_invariant_witness :
    (⟨"ExtrudeFeature Class", "https://help.autodesk.com/foo.html",
      "/foo.html", "x1", ""⟩ : ApiEntry).url
      = urljoin BASE_URL "/foo.html" := by
  have h := extract_url_invariant
  refine h.2 (TocNode.map "ExtrudeFeature Class" "/foo.html" "x1" []) "" _ ?_
  rw [h.1]
  exact List.mem_cons_self _ _

/-- C6: every parsed document has content of at most 2000 characters, at most
5 code examples each strictly longer than 10 characters after stripping (so
a pre block of 10 or fewer characters is excluded), deduplicated classes,
methods and properties capped at 10, 20 and 20 respectively, and the literal
title Unknown when the markup has neither a title element nor an h1
element. -/
theorem parse_api_documentation_bounds
    (findall : String → String → List String) (soup : Soup) (url : String) :
    (parse_api_documentation findall soup url).content.length ≤ 2000
    ∧ (parse_api_documentation findall soup url).code_examples.length ≤ 5
    ∧ (∀ c ∈ (parse_api_documentation findall soup url).code_examples,
        10 < c.length)
    ∧ (parse_api_documentation findall soup url).classes.Nodup
    ∧ (parse_api_documentation findall soup url).classes.length ≤ 10
    ∧ (parse_api_documentation findall soup url).methods.Nodup
    ∧ (parse_api_documentation findall soup url).methods.length ≤ 20
    ∧ (parse_api_documentation findall soup url).properties.Nodup
    ∧ (parse_api_documentation findall soup url).properties.length ≤ 20
    ∧ (soup.titleText = none → soup.h1Text = none →
        (parse_api_documentation findall soup url).title = "Unknown") := by
  have hcode : (parse_api_documentation findall soup url).code_examples
      = ((soup.codeTexts.map pyStrip).filter
          (fun t => decide (10 < t.length))).take 5 := rfl
  have hclasses : (parse_api_documentation findall soup url).classes
      = (pySet (class_patterns.foldl
          (fun acc p => acc ++ findall p soup.contentText) [])).take 10 := rfl
  have hmethods : (parse_api_documentation findall soup url).methods
      = (pySet (method_patterns.foldl
          (fun acc p => acc ++ findall p soup.contentText) [])).take 20 := rfl
  have hprops : (parse_api_documentation findall soup url).properties
      = (pySet (property_patterns.foldl
          (fun acc p => acc ++ findall p soup.contentText) [])).take 20 := rfl
  refine ⟨?_, ?_, ?_, ?_, ?_, ?_, ?_, ?_, ?_, ?_⟩
  · show (soup.contentText.data.take 2000).length ≤ 2000
    rw [List.length_take]
    exact min_le_left _ _
  · rw [hcode, List.length_take]
    exact min_le_left _ _
  · intro c hc
    rw [hcode] at hc
    have hc2 := List.mem_of_mem_take hc
    exact of_decide_eq_true (List.mem_filter.mp hc2).2
  · rw [hclasses]
    exact (List.take_sublist _ _).nodup (List.nodup_dedup _)
  · rw [hclasses, List.length_take]
    exact min_le_left _ _
  · rw [hmethods]
    exact (List.take_sublist _ _).nodup (List.nodup_dedup _)
  · rw [hmethods, List.length_take]
    exact min_le_left _ _
  · rw [hprops]
    exact (List.take_sublist _ _).nodup (List.nodup_dedup _)
  · rw [hprops, List.length_take]
    exact min_le_left _ _
  · intro ht hh
    simp [parse_api_documentation, ht, hh]

/-- Witness for C6: a document with no title and no h1 gets the literal
title Unknown, while the bounds hold at the same input. -/
theorem parse_api_documentation_bounds_witness :
    (parse_api_documentation (fun _ _ => ["A", "A", "B"])
        ⟨none, none, "text", ["tiny", "a longer code block"]⟩ "u").title
      = "Unknown"
    ∧ (parse_api_documentation (fun _ _ => ["A", "A", "B"])
        ⟨none, none, "text", ["tiny", "a longer code block"]⟩ "u").classes.Nodup := by
  have h := parse_api_documentation_bounds (fun _ _ => ["A", "A", "B"])
    ⟨none, none, "text", ["tiny", "a longer code block"]⟩ "u"
  exact ⟨h.2.2.2.2.2.2.2.2.2 rfl rfl, h.2.2.2.1⟩

/-- C7: the class detail lookup filters the entries whose lowered title
contains the lowered class name; with no match it returns the literal not
found message; otherwise it resolves the first match in extraction order
through the per entry doc cache oracle, rendering its detail on success and
falling back, on failure, to listing the first at most three raw
candidates. -/
theorem get_api_class_info_spec (api_entries : List ApiEntry)
    (resolve : ApiEntry → Option ParsedDoc) (class_name : String) :
    (api_entries.filter
        (fun e => strContains (lowerStr e.title) (lowerStr class_name)) = []
      → get_api_class_info api_entries resolve class_name
          = noClassMsg class_name)
    ∧ ∀ best rest,
        api_entries.filter
          (fun e => strContains (lowerStr e.title) (lowerStr class_name))
          = best :: rest →
        ((∀ d, resolve best = some d →
            get_api_class_info api_entries resolve class_name
              = renderClassDetail class_name d)
          ∧ (resolve best = none →
            get_api_class_info api_entries resolve class_name
              = renderFallback class_name ((best :: rest).take 3))) := by
  constructor
  · intro h0
    simp only [get_api_class_info, h0]
  · intro best rest hbr
    constructor
    · intro d hd
      simp only [get_api_class_info, hbr, hd]
    · intro hd
      simp only [get_api_class_info, hbr, hd]

/-- Witness for C7: with no matching entry the literal message is produced,
and with one matching entry whose resolution fails the raw fallback listing
is produced. -/
theorem get_api_class_info_spec_witness :
    get_api_class_info [] (fun _ => none) "Sketch" = noClassMsg "Sketch"
    ∧ get_api_class_info [⟨"Sketch Class", "u", "l", "i", ""⟩]
        (fun _ => none) "Sketch"
      = renderFallback "Sketch" [⟨"Sketch Class", "u", "l", "i", ""⟩] := by
  constructor
  · exact (get_api_class_info_spec [] (fun _ => none) "Sketch").1 rfl
  · have h := (get_api_class_info_spec
      [⟨"Sketch Class", "u", "l", "i", ""⟩] (fun _ => none) "Sketch").2
      ⟨"Sketch Class", "u", "l", "i", ""⟩ [] (by decide)
    exact h.2 rfl
